import Mathlib

/-!
Shallow embedding of the `sluggable` Go package: the configuration record
(`options`), the functional options (`WithSeperator`, `WithWhere`, ... from
options.go), the defaults (`getDefaultOptions` from global.go) and the
collision-resolution engine (`Sluggable.Generate`).  Go strings are modelled
as Lean `String`, the `any`-typed query parameters as `Param`, the `map
[string][]any` of predicate fragments as an association list built by
insert-with-overwrite (Go map insertion), and the SQL executor as a function
returning either rows or an error string.  Go's in-place mutation of the
instance's options pointer inside `Generate` is made explicit: the result
record carries the post-call instance state.
-/

/-- A query parameter (Go `any`): enough constructors for the values the
package and its tests pass around. -/
inductive Param where
  | str : String → Param
  | int : Int → Param
deriving DecidableEq, Repr

/-- One projected column of a returned row: either it decodes to a string or
`rows.Scan` fails on it with the driver's error message. -/
inductive Cell where
  | ok : String → Cell
  | bad : String → Cell
deriving DecidableEq, Repr

/-- A returned row: the identifier column and the slug column. -/
abbrev Row := Cell × Cell

/-- The executor (`contextExecutor.Query`): given the SQL text and the
parameter list, returns the rows or fails. -/
abbrev Exec := String → List Param → Except String (List Row)

/-- `listStarts p s`: the char list `p` is an initial segment of `s`
(models byte-level prefix tests of Go's `strings` package). -/
def listStarts : List Char → List Char → Bool
  | [], _ => true
  | _ :: _, [] => false
  | p :: ps, c :: cs => p == c && listStarts ps cs

/-- Go `strings.HasPrefix s pre`. -/
def hasPre (s pre : String) : Bool :=
  listStarts pre.data s.data

/-- Go `strings.TrimPrefix s pre`: removes `pre` from the front of `s` when
present, otherwise returns `s` unchanged. -/
def trimPre (s pre : String) : String :=
  if listStarts pre.data s.data then ⟨s.data.drop pre.data.length⟩ else s

/-- Fuel-driven worker for `replaceAll`; the fuel starts at the length of the
subject so it never runs out before the characters do. -/
def replaceGo (pat rep : List Char) : Nat → List Char → List Char
  | _, [] => []
  | 0, rest => rest
  | Nat.succ n, c :: cs =>
    if pat ≠ [] ∧ listStarts pat (c :: cs) then
      rep ++ replaceGo pat rep n (List.drop (pat.length - 1) cs)
    else
      c :: replaceGo pat rep n cs

/-- Go `strings.ReplaceAll s pat rep` (for the non-empty patterns the package
uses): replaces every non-overlapping occurrence, scanning left to right. -/
def replaceAll (s pat rep : String) : String :=
  ⟨replaceGo pat.data rep.data s.data.length s.data⟩

/-- Decimal value of a digit list. -/
def digitsToNat (ds : List Char) : Nat :=
  ds.foldl (fun n d => 10 * n + (d.toNat - 48)) 0

/-- Go `strconv.Atoi`: optional sign, then one or more decimal digits, and the
value must fit a 64-bit `int`; `none` models a returned error. -/
def Atoi (s : String) : Option Int :=
  match s.data with
  | [] => none
  | c :: cs =>
    let ds := if c = '-' ∨ c = '+' then cs else c :: cs
    if ds = [] then none
    else if ds.all Char.isDigit then
      let n : Nat := digitsToNat ds
      if c = '-' then
        if n ≤ 2 ^ 63 then some (-(n : Int)) else none
      else
        if n < 2 ^ 63 then some (n : Int) else none
    else none

/-- Go map insertion `m[k] = v` on the association-list model: overwrites the
entry for `k` in place when present, otherwise appends a fresh entry. -/
def insertAssoc {β : Type} : List (String × β) → String → β → List (String × β)
  | [], k, v => [(k, v)]
  | p :: ps, k, v =>
    if p.1 == k then (k, v) :: ps else p :: insertAssoc ps k v

/-- Go map lookup `m[k]` on the association-list model. -/
def lookupAssoc {β : Type} : List (String × β) → String → Option β
  | [], _ => none
  | p :: ps, k => if p.1 == k then some p.2 else lookupAssoc ps k

/-- The `options` struct of options.go (field names as in the source; the Go
`wheres map[string][]any` becomes an association list). -/
structure options where
  method : String → String → String
  seperator : String
  tableName : String
  columnName : String
  identifier : String
  firstUniqueSuffix : Int
  wheres : List (String × List Param)

/-- A functional option (`sluggableOption`), as a pure state transformer. -/
abbrev sluggableOption := options → options

def WithMethod (m : String → String → String) : sluggableOption :=
  fun o => { o with method := m }

def WithSeperator (sep : String) : sluggableOption :=
  fun o => { o with seperator := sep }

def WithTableName (t : String) : sluggableOption :=
  fun o => { o with tableName := t }

def WithColumnName (c : String) : sluggableOption :=
  fun o => { o with columnName := c }

def WithFirstUniqueSuffix (n : Int) : sluggableOption :=
  fun o => { o with firstUniqueSuffix := n }

def WithIdentifier (i : String) : sluggableOption :=
  fun o => { o with identifier := i }

/-- The fixed predicate key used for soft-delete exclusion (global.go). -/
def excludeDeletedWhere : String := "\"deleted_at\" IS NULL"

/-- `WithDeleted()`: deletes the soft-delete exclusion entry from the
predicate mapping (Go `delete(opts.wheres, excludeDeletedWhere)`). -/
def WithDeleted : sluggableOption :=
  fun o => { o with wheres := o.wheres.filter (fun p => !(p.1 == excludeDeletedWhere)) }

/-- `WithWhere(sql, params...)`: inserts/overwrites the mapping entry keyed by
the raw fragment text. -/
def WithWhere (sql : String) (ps : List Param) : sluggableOption :=
  fun o => { o with wheres := insertAssoc o.wheres sql ps }

/-- `getDefaultOptions` of global.go, parameterized by the external
`slugify.MakeLang` collaborator; the installed default method calls
`makeLang value "en"` and ignores its separator argument, as in the source. -/
def getDefaultOptions (makeLang : String → String → String) : options :=
  { method := fun value _seperator => makeLang value "en"
  , seperator := "-"
  , tableName := ""
  , columnName := "slug"
  , identifier := ""
  , firstUniqueSuffix := 2
  , wheres := [(excludeDeletedWhere, [])] }

/-- Applying an option list in order to a working configuration (the loops in
`New` and `Generate`). -/
def applyOpts (o : options) (os : List sluggableOption) : options :=
  os.foldl (fun acc f => f acc) o

/-- The `Sluggable` struct. -/
structure Sluggable where
  options : options

/-- `New(options...)`. -/
def SluggableNew (makeLang : String → String → String) (os : List sluggableOption) : Sluggable :=
  ⟨applyOpts (getDefaultOptions makeLang) os⟩

/-- The inner placeholder-rewriting loop of `Generate`: for each argument of
the predicate fragment, computes `"$" ++ (len(params)+1)`, replaces every
`"?"` still present in the fragment by it, and appends that argument to the
parameter list. -/
def normalizeWhere (whereSql : String) (args : List Param) (params : List Param) :
    String × List Param :=
  args.foldl
    (fun acc a =>
      (replaceAll acc.1 "?" ("$" ++ toString (acc.2.length + 1)), acc.2 ++ [a]))
    (whereSql, params)

/-- The query-construction block of `Generate`: the base SELECT with the two
base parameters, then each predicate fragment ANDed in (with its parameters
appended a second time after the inner loop, as the source does), then the
table and column placeholders substituted. -/
def buildQuery (opts : options) (slug : String) : String × List Param :=
  let sql0 := "SELECT \"id\", \"\x7bcolumn\x7d\" FROM \"\x7btable\x7d\" WHERE (\"\x7bcolumn\x7d\" = $1 OR \"\x7bcolumn\x7d\" LIKE $2)"
  let params0 : List Param := [Param.str slug, Param.str (slug ++ opts.seperator ++ "%")]
  let step := opts.wheres.foldl
    (fun acc wa =>
      let nw := normalizeWhere wa.1 wa.2 acc.2
      (acc.1 ++ " AND (" ++ nw.1 ++ ")", nw.2 ++ wa.2))
    (sql0, params0)
  (replaceAll (replaceAll step.1 "\x7btable\x7d" opts.tableName) "\x7bcolumn\x7d" opts.columnName,
   step.2)

/-- `rows.Scan(&idValue, &slugValue)` for one row: both cells must decode. -/
def scanRow : Row → Except String (String × String)
  | (Cell.ok i, Cell.ok s) => Except.ok (i, s)
  | (Cell.bad e, _) => Except.error e
  | (Cell.ok _, Cell.bad e) => Except.error e

/-- The row-reading loop: aborts on the first row whose scan fails (partial
rows already classified are discarded). -/
def scanRows : List Row → Except String (List (String × String))
  | [] => Except.ok []
  | r :: rs =>
    match scanRow r with
    | Except.error e => Except.error e
    | Except.ok p =>
      match scanRows rs with
      | Except.error e => Except.error e
      | Except.ok ps => Except.ok (p :: ps)

/-- Building `simularList` (`map[string]string`) from the scanned rows. -/
def buildSimularList (pairs : List (String × String)) : List (String × String) :=
  pairs.foldl (fun m p => insertAssoc m p.1 p.2) []

/-- The suffix-scan loop over the values of `simularList`, threading the
running maximum `latestSuffix`. -/
def latestSuffixAux (slug sep : String) (latest : Int) : List String → Int
  | [] => latest
  | v :: vs =>
    match Atoi (trimPre v (slug ++ sep)) with
    | none => latestSuffixAux slug sep latest vs
    | some n => latestSuffixAux slug sep (if n > latest then n else latest) vs

/-- `latestSuffix` as computed by `Generate`, starting from 0. -/
def latestSuffix (vals : List String) (slug sep : String) : Int :=
  latestSuffixAux slug sep 0 vals

/-- The identifier short-circuit of `Generate` as an optional early return:
`some existing` exactly when the source's nested `if`s return early. -/
def shortCircuitSlug (m : options) (slug : String) (sl : List (String × String)) :
    Option String :=
  if m.identifier = "" then none
  else
    match lookupAssoc sl m.identifier with
    | none => none
    | some existingSlug =>
      if existingSlug == slug || existingSlug == "" || hasPre existingSlug slug
      then some existingSlug else none

/-- Wrap-around of Go's 64-bit `int`: maps an integer to the representative
of its class mod `2^64` lying in `[-2^63, 2^63)`, so `MaxInt64 + 1` becomes
`MinInt64` exactly as Go's `latestSuffix+1` does. -/
def wrapInt64 (n : Int) : Int :=
  (n + 2 ^ 63) % 2 ^ 64 - 2 ^ 63

/-- The decision logic of `Generate` on the built `simularList`.  The
increment `latestSuffix+1` is taken in Go's 64-bit integer arithmetic. -/
def decision (m : options) (slug : String) (sl : List (String × String)) : String :=
  if sl.length = 0 then slug
  else
    match shortCircuitSlug m slug sl with
    | some r => r
    | none =>
      let latest := latestSuffix (sl.map Prod.snd) slug m.seperator
      if latest > 0 then slug ++ m.seperator ++ toString (wrapInt64 (latest + 1))
      else slug ++ m.seperator ++ toString m.firstUniqueSuffix

def tableErrMsg : String := "[sluggable] table name cannot be empty"

def queryErrPre : String := "[sluggable] failed to query sluggable: "

def scanErrPre : String := "[sluggable] failed to scan sluggable value: "

/-- The per-call result of `Generate` given the already-merged options: the
returned slug, the returned error (`none` on success, and the slug is `""`
whenever an error is returned, as in the source), and the list of queries
actually handed to the executor. -/
def generateResult (m : options) (db : Exec) (value : String) :
    String × Option String × List (String × List Param) :=
  if m.tableName.length = 0 then ("", some tableErrMsg, [])
  else
    match db (buildQuery m (m.method value m.seperator)).1
             (buildQuery m (m.method value m.seperator)).2 with
    | Except.error e =>
      ("", some (queryErrPre ++ e), [buildQuery m (m.method value m.seperator)])
    | Except.ok rows =>
      match scanRows rows with
      | Except.error e =>
        ("", some (scanErrPre ++ e), [buildQuery m (m.method value m.seperator)])
      | Except.ok pairs =>
        (decision m (m.method value m.seperator) (buildSimularList pairs), none,
         [buildQuery m (m.method value m.seperator)])

/-- The full observable outcome of one `Generate` call.  `state` is the
instance as it stands after the call: the source applies the per-call
options through the shared `*options` pointer (`opts := s.options`), so the
instance's base configuration holds the merged options afterwards. -/
structure GenOut where
  slug : String
  error : Option String
  queries : List (String × List Param)
  state : Sluggable

/-- `(*Sluggable).Generate(db, value, options...)`. -/
def Sluggable.Generate (s : Sluggable) (db : Exec) (value : String)
    (os : List sluggableOption) : GenOut :=
  { slug := (generateResult (applyOpts s.options os) db value).1
  , error := (generateResult (applyOpts s.options os) db value).2.1
  , queries := (generateResult (applyOpts s.options os) db value).2.2
  , state := ⟨applyOpts s.options os⟩ }

/-- A slug method that returns its input unchanged, used for concrete runs. -/
def identityMethod : String → String → String := fun v _ => v

/-- An executor that returns no rows. -/
def dbOkEmpty : Exec := fun _ _ => Except.ok []

/-- A plain merged configuration with no predicates, used for concrete runs. -/
def optsPlain : options :=
  { method := identityMethod, seperator := "-", tableName := "t", columnName := "slug",
    identifier := "", firstUniqueSuffix := 2, wheres := [] }

/-- Configuration used for the predicate-rewriting run: one fragment with two
placeholders and two parameters, as in the repository's usage example. -/
def optsTwoPlaceholders : options :=
  { method := identityMethod, seperator := "-", tableName := "t", columnName := "slug",
    identifier := "", firstUniqueSuffix := 2,
    wheres := [("a = ? AND b = ?", [Param.int 1, Param.int 2])] }

/-- An executor that returns the single row `("1", "7")`. -/
def dbLoneInteger : Exec := fun _ _ => Except.ok [(Cell.ok "1", Cell.ok "7")]

/-- An executor that returns the rows of the gap-free-sequence scenario. -/
def dbThree : Exec := fun _ _ => Except.ok
  [(Cell.ok "1", Cell.ok "hello-world"), (Cell.ok "2", Cell.ok "hello-world-2"),
   (Cell.ok "3", Cell.ok "hello-world-3")]

/-- An executor that returns a single exact-duplicate row. -/
def dbDup : Exec := fun _ _ => Except.ok [(Cell.ok "1", Cell.ok "hello-world")]

/-- An executor that returns the identifier's row plus a higher-suffix row. -/
def dbIdent : Exec := fun _ _ => Except.ok
  [(Cell.ok "1", Cell.ok "hello-world"), (Cell.ok "9", Cell.ok "hello-world-9")]

/-- The configuration of the identifier-short-circuit run. -/
def optsIdent : options :=
  { method := identityMethod, seperator := "-", tableName := "t", columnName := "slug",
    identifier := "1", firstUniqueSuffix := 2, wheres := [] }

/-- An executor that always fails. -/
def dbFail : Exec := fun _ _ => Except.error "boom"

/-- An executor that returns one row whose suffix is MaxInt64. -/
def dbMaxInt : Exec := fun _ _ =>
  Except.ok [(Cell.ok "1", Cell.ok "a-9223372036854775807")]

theorem strLenZero (s : String) : s.length = 0 ↔ s = "" := by
  constructor
  · intro h
    cases s with
    | mk data =>
      cases data with
      | nil => rfl
      | cons c cs => exact absurd h (by simp [String.length])
  · intro h
    subst h
    rfl

theorem filter_idem {α : Type} (f : α → Bool) (l : List α) :
    (l.filter f).filter f = l.filter f := by
  induction l with
  | nil => rfl
  | cons a l ih =>
    by_cases h : f a = true
    · simp [List.filter_cons, h, ih]
    · simp [List.filter_cons, h, ih]

theorem insertAssoc_twice {β : Type} (m : List (String × β)) (k : String) (v1 v2 : β) :
    insertAssoc (insertAssoc m k v1) k v2 = insertAssoc m k v2 := by
  induction m with
  | nil => simp [insertAssoc]
  | cons p ps ih =>
    by_cases h : p.1 == k
    · simp [insertAssoc, h, ih]
    · simp [insertAssoc, h, ih]

theorem lookupAssoc_insertAssoc {β : Type} (m : List (String × β)) (k : String) (v : β) :
    lookupAssoc (insertAssoc m k v) k = some v := by
  induction m with
  | nil => simp [insertAssoc, lookupAssoc]
  | cons p ps ih =>
    by_cases h : p.1 == k
    · simp [insertAssoc, lookupAssoc, h]
    · simp [insertAssoc, lookupAssoc, h, ih]

theorem lookupAssoc_ne_nil {β : Type} (sl : List (String × β)) (k : String) (v : β)
    (h : lookupAssoc sl k = some v) : sl ≠ [] := by
  intro hnil
  subst hnil
  simp [lookupAssoc] at h

theorem latestSuffixAux_ge (slug sep : String) (vs : List String) :
    ∀ latest, latest ≤ latestSuffixAux slug sep latest vs := by
  induction vs with
  | nil =>
    intro latest
    simp [latestSuffixAux]
  | cons v vs ih =>
    intro latest
    simp only [latestSuffixAux]
    cases h : Atoi (trimPre v (slug ++ sep)) with
    | none => exact ih latest
    | some n =>
      show latest ≤ latestSuffixAux slug sep (if n > latest then n else latest) vs
      by_cases hn : n > latest
      · rw [if_pos hn]
        exact le_trans (le_of_lt hn) (ih n)
      · rw [if_neg hn]
        exact ih latest

theorem latestSuffixAux_le (slug sep : String) (M : Int) (vs : List String)
    (hub : ∀ v ∈ vs, ∀ n, Atoi (trimPre v (slug ++ sep)) = some n → n ≤ M) :
    ∀ latest, latest ≤ M → latestSuffixAux slug sep latest vs ≤ M := by
  induction vs with
  | nil =>
    intro latest h
    simpa [latestSuffixAux] using h
  | cons v vs ih =>
    intro latest hl
    simp only [latestSuffixAux]
    have hub2 : ∀ w ∈ vs, ∀ n, Atoi (trimPre w (slug ++ sep)) = some n → n ≤ M :=
      fun w hw => hub w (List.mem_cons_of_mem _ hw)
    cases h : Atoi (trimPre v (slug ++ sep)) with
    | none => exact ih hub2 latest hl
    | some n =>
      have hn : n ≤ M := hub v (List.mem_cons_self _ _) n h
      show latestSuffixAux slug sep (if n > latest then n else latest) vs ≤ M
      by_cases hgt : n > latest
      · rw [if_pos hgt]
        exact ih hub2 n hn
      · rw [if_neg hgt]
        exact ih hub2 latest hl

theorem latestSuffixAux_achieve (slug sep : String) (v : String) (n : Int) (vs : List String)
    (hv : v ∈ vs) (hparse : Atoi (trimPre v (slug ++ sep)) = some n) :
    ∀ latest, n ≤ latestSuffixAux slug sep latest vs := by
  induction vs with
  | nil => cases hv
  | cons w ws ih =>
    intro latest
    rcases List.mem_cons.mp hv with rfl | hmem
    · simp only [latestSuffixAux, hparse]
      show n ≤ latestSuffixAux slug sep (if n > latest then n else latest) ws
      by_cases hgt : n > latest
      · rw [if_pos hgt]
        exact latestSuffixAux_ge slug sep ws n
      · rw [if_neg hgt]
        exact le_trans (not_lt.mp hgt) (latestSuffixAux_ge slug sep ws latest)
    · simp only [latestSuffixAux]
      cases h : Atoi (trimPre w (slug ++ sep)) with
      | none => exact ih hmem latest
      | some k => exact ih hmem _

theorem latestSuffix_eq_max (vals : List String) (slug sep : String) (M : Int)
    (hM : 0 < M)
    (hach : ∃ v ∈ vals, Atoi (trimPre v (slug ++ sep)) = some M)
    (hub : ∀ v ∈ vals, ∀ n, Atoi (trimPre v (slug ++ sep)) = some n → 0 < n → n ≤ M) :
    latestSuffix vals slug sep = M := by
  obtain ⟨v, hv, hp⟩ := hach
  have hub2 : ∀ w ∈ vals, ∀ n, Atoi (trimPre w (slug ++ sep)) = some n → n ≤ M := by
    intro w hw n hn
    by_cases h0 : 0 < n
    · exact hub w hw n hn h0
    · exact le_trans (not_lt.mp h0) (le_of_lt hM)
  exact le_antisymm (latestSuffixAux_le slug sep M vals hub2 0 (le_of_lt hM))
    (latestSuffixAux_achieve slug sep v M vals hv hp 0)

theorem latestSuffix_eq_zero (vals : List String) (slug sep : String)
    (hub : ∀ v ∈ vals, ∀ n, Atoi (trimPre v (slug ++ sep)) = some n → n ≤ 0) :
    latestSuffix vals slug sep = 0 :=
  le_antisymm (latestSuffixAux_le slug sep 0 vals hub 0 le_rfl)
    (latestSuffixAux_ge slug sep vals 0)

theorem latestSuffixAux_skip (slug sep v : String)
    (h : Atoi (trimPre v (slug ++ sep)) = none) (vs1 vs2 : List String) :
    ∀ latest, latestSuffixAux slug sep latest (vs1 ++ v :: vs2) =
      latestSuffixAux slug sep latest (vs1 ++ vs2) := by
  induction vs1 with
  | nil =>
    intro latest
    simp [latestSuffixAux, h]
  | cons w ws ih =>
    intro latest
    simp only [List.cons_append, latestSuffixAux]
    cases hw : Atoi (trimPre w (slug ++ sep)) with
    | none => exact ih latest
    | some k => exact ih _

theorem decision_short (m : options) (slug : String) (sl : List (String × String))
    (ex : String) (hne : sl ≠ []) (hsc : shortCircuitSlug m slug sl = some ex) :
    decision m slug sl = ex := by
  have hlen : ¬ (sl.length = 0) := fun h => hne (List.length_eq_zero.mp h)
  simp only [decision, if_neg hlen, hsc]

theorem decision_suffix (m : options) (slug : String) (sl : List (String × String))
    (hne : sl ≠ []) (hsc : shortCircuitSlug m slug sl = none) :
    decision m slug sl =
      (if latestSuffix (sl.map Prod.snd) slug m.seperator > 0
       then slug ++ m.seperator ++
         toString (wrapInt64 (latestSuffix (sl.map Prod.snd) slug m.seperator + 1))
       else slug ++ m.seperator ++ toString m.firstUniqueSuffix) := by
  have hlen : ¬ (sl.length = 0) := fun h => hne (List.length_eq_zero.mp h)
  simp only [decision, if_neg hlen, hsc]

theorem generateResult_ok (m : options) (db : Exec) (value : String)
    (rows : List Row) (pairs : List (String × String))
    (hlen : ¬ (m.tableName.length = 0))
    (hdb : db (buildQuery m (m.method value m.seperator)).1
             (buildQuery m (m.method value m.seperator)).2 = Except.ok rows)
    (hscan : scanRows rows = Except.ok pairs) :
    generateResult m db value =
      (decision m (m.method value m.seperator) (buildSimularList pairs), none,
       [buildQuery m (m.method value m.seperator)]) := by
  simp only [generateResult, if_neg hlen, hdb, hscan]

theorem generateResult_queryError (m : options) (db : Exec) (value : String) (e : String)
    (hlen : ¬ (m.tableName.length = 0))
    (hdb : db (buildQuery m (m.method value m.seperator)).1
             (buildQuery m (m.method value m.seperator)).2 = Except.error e) :
    generateResult m db value =
      ("", some (queryErrPre ++ e), [buildQuery m (m.method value m.seperator)]) := by
  simp only [generateResult, if_neg hlen, hdb]

theorem generateResult_scanError (m : options) (db : Exec) (value : String)
    (rows : List Row) (e : String)
    (hlen : ¬ (m.tableName.length = 0))
    (hdb : db (buildQuery m (m.method value m.seperator)).1
             (buildQuery m (m.method value m.seperator)).2 = Except.ok rows)
    (hscan : scanRows rows = Except.error e) :
    generateResult m db value =
      ("", some (scanErrPre ++ e), [buildQuery m (m.method value m.seperator)]) := by
  simp only [generateResult, if_neg hlen, hdb, hscan]

/-- Claim C1 (code evaluated at the failing input): with one configured
predicate `a = ? AND b = ?` carrying parameters `[1, 2]`, the query handed to
the executor rewrites BOTH placeholders to the same positional index `$3`
(not `$3, $4`), and the predicate's parameters appear TWICE in the parameter
list (`[slug, like, 1, 2, 1, 2]`), because the inner loop appends each
argument and the outer loop then appends the whole argument list again. -/
theorem predicateParamsDuplicated :
    (Sluggable.Generate ⟨optsTwoPlaceholders⟩ dbOkEmpty "s" []).queries =
      [("SELECT \"id\", \"slug\" FROM \"t\" WHERE (\"slug\" = $1 OR \"slug\" LIKE $2) AND (a = $3 AND b = $3)",
        [Param.str "s", Param.str "s-%", Param.int 1, Param.int 2,
         Param.int 1, Param.int 2])] := by
  decide

/-- Claim C2 counterexample: a `Generate` call with a per-call separator
override leaves the instance's base configuration changed afterwards — the
base separator was `"-"` before the call and is `"_"` after it, so the merge
does mutate the resolver instance's base configuration. -/
theorem generateMutatesBaseConfig :
    (Sluggable.mk (getDefaultOptions identityMethod)).options.seperator = "-" ∧
    ((Sluggable.mk (getDefaultOptions identityMethod)).Generate dbOkEmpty "x"
      [WithSeperator "_"]).state.options.seperator = "_" :=
  ⟨rfl, rfl⟩

/-- Claim C2 (amended): merging per-call overrides inside `Generate` is done
directly on the resolver instance's configuration, mutating it: after every
call the instance's base configuration equals the previous base with the
per-call overrides applied in order. -/
theorem generateStateIsMergedBase (s : Sluggable) (db : Exec) (value : String)
    (os : List sluggableOption) :
    (s.Generate db value os).state = ⟨applyOpts s.options os⟩ :=
  rfl

/-- Claim C3 counterexample: with one returned slug carrying the suffix
MaxInt64 = 9223372036854775807 (which `Atoi` accepts), the program's
`latestSuffix+1` wraps in 64-bit arithmetic to MinInt64 and the call returns
`"a--9223372036854775808"`, not `candidateSlug + separator + (max + 1)` =
`"a-9223372036854775808"` — so the claim's unbounded max-plus-one reading is
false at this reachable input. -/
theorem maxSuffixWrapsAtInt64Boundary :
    (Sluggable.Generate ⟨optsPlain⟩ dbMaxInt "a" []).slug = "a--9223372036854775808" ∧
    (Sluggable.Generate ⟨optsPlain⟩ dbMaxInt "a" []).slug ≠
      "a" ++ "-" ++ toString ((9223372036854775807 : Int) + 1) := by
  decide

/-- Claim C3 (amended): when the returned row set is non-empty, the identifier
short-circuit does not apply, and `M` is the maximal positive integer some
returned slug strips to after `TrimPrefix` of `candidateSlug + separator`,
`Generate` succeeds with `candidateSlug + separator + (M + 1)` where the
increment is taken in Go's 64-bit integer arithmetic — exactly `M + 1` for
every `M < 2^63 - 1`, wrapping to `-2^63` at `M = 2^63 - 1`; always derived
from the maximum, never a gap-filling value. -/
theorem generateMaxSuffixPlusOne (s : Sluggable) (db : Exec) (value : String)
    (os : List sluggableOption) (m : options) (cslug : String)
    (rows : List Row) (pairs sl : List (String × String)) (M : Int)
    (hm : m = applyOpts s.options os)
    (hname : m.tableName ≠ "")
    (hslug : cslug = m.method value m.seperator)
    (hdb : db (buildQuery m cslug).1 (buildQuery m cslug).2 = Except.ok rows)
    (hscan : scanRows rows = Except.ok pairs)
    (hsl : sl = buildSimularList pairs)
    (hne : sl ≠ [])
    (hsc : shortCircuitSlug m cslug sl = none)
    (hM : 0 < M)
    (hach : ∃ v ∈ sl.map Prod.snd, Atoi (trimPre v (cslug ++ m.seperator)) = some M)
    (hub : ∀ v ∈ sl.map Prod.snd, ∀ n,
      Atoi (trimPre v (cslug ++ m.seperator)) = some n → 0 < n → n ≤ M) :
    (s.Generate db value os).slug = cslug ++ m.seperator ++ toString (wrapInt64 (M + 1)) ∧
    (s.Generate db value os).error = none := by
  subst hm
  subst hslug
  subst hsl
  have hlen : ¬ ((applyOpts s.options os).tableName.length = 0) :=
    fun h => hname ((strLenZero _).mp h)
  have hgr := generateResult_ok (applyOpts s.options os) db value rows pairs hlen hdb hscan
  have hmax := latestSuffix_eq_max ((buildSimularList pairs).map Prod.snd) _ _ M hM hach hub
  have hdec := decision_suffix (applyOpts s.options os) _ (buildSimularList pairs) hne hsc
  rw [hmax, if_pos hM] at hdec
  constructor
  · simp only [Sluggable.Generate, hgr]
    exact hdec
  · simp only [Sluggable.Generate, hgr]

/-- Claim C3 witness: existing set `{hello-world, hello-world-2,
hello-world-3}` yields `hello-world-4` (the 64-bit increment of 3 is 4). -/
theorem generateMaxSuffixPlusOneWitness :
    (Sluggable.Generate ⟨optsPlain⟩ dbThree "hello-world" []).slug = "hello-world-4" ∧
    (Sluggable.Generate ⟨optsPlain⟩ dbThree "hello-world" []).error = none := by
  have h := generateMaxSuffixPlusOne ⟨optsPlain⟩ dbThree "hello-world" [] optsPlain "hello-world"
    [(Cell.ok "1", Cell.ok "hello-world"), (Cell.ok "2", Cell.ok "hello-world-2"),
     (Cell.ok "3", Cell.ok "hello-world-3")]
    [("1", "hello-world"), ("2", "hello-world-2"), ("3", "hello-world-3")]
    [("1", "hello-world"), ("2", "hello-world-2"), ("3", "hello-world-3")]
    3 rfl (by decide) rfl rfl rfl rfl (by decide) (by decide) (by decide)
    ⟨"hello-world-3", by decide, by decide⟩
    (by
      intro v hv n hn h0
      simp only [List.map_cons, List.map_nil, List.mem_cons, List.not_mem_nil,
        or_false] at hv
      rcases hv with rfl | rfl | rfl
      · rw [(by decide :
          Atoi (trimPre "hello-world" ("hello-world" ++ optsPlain.seperator)) = none)] at hn
        exact Option.noConfusion hn
      · have h2 := Option.some.inj ((by decide :
          Atoi (trimPre "hello-world-2" ("hello-world" ++ optsPlain.seperator)) =
            some 2).symm.trans hn)
        omega
      · have h3 := Option.some.inj ((by decide :
          Atoi (trimPre "hello-world-3" ("hello-world" ++ optsPlain.seperator)) =
            some 3).symm.trans hn)
        omega)
  exact ⟨h.1.trans (by decide), h.2⟩

/-- Claim C4: when the identifier option is set, the built row set contains
that identifier, and its stored slug equals the candidate, is empty, or has
the candidate as a prefix, `Generate` returns that stored slug unchanged and
succeeds, regardless of the other rows present. -/
theorem generateIdentifierShortCircuit (s : Sluggable) (db : Exec) (value : String)
    (os : List sluggableOption) (m : options) (cslug : String)
    (rows : List Row) (pairs sl : List (String × String)) (ex : String)
    (hm : m = applyOpts s.options os)
    (hname : m.tableName ≠ "")
    (hslug : cslug = m.method value m.seperator)
    (hdb : db (buildQuery m cslug).1 (buildQuery m cslug).2 = Except.ok rows)
    (hscan : scanRows rows = Except.ok pairs)
    (hsl : sl = buildSimularList pairs)
    (hid : m.identifier ≠ "")
    (hlook : lookupAssoc sl m.identifier = some ex)
    (hcond : ex = cslug ∨ ex = "" ∨ hasPre ex cslug = true) :
    (s.Generate db value os).slug = ex ∧ (s.Generate db value os).error = none := by
  subst hm
  subst hslug
  subst hsl
  have hlen : ¬ ((applyOpts s.options os).tableName.length = 0) :=
    fun h => hname ((strLenZero _).mp h)
  have hgr := generateResult_ok (applyOpts s.options os) db value rows pairs hlen hdb hscan
  have hne : buildSimularList pairs ≠ [] := lookupAssoc_ne_nil _ _ _ hlook
  have hbool : (ex == (applyOpts s.options os).method value (applyOpts s.options os).seperator
      || ex == "" ||
      hasPre ex ((applyOpts s.options os).method value (applyOpts s.options os).seperator)) =
      true := by
    rcases hcond with h | h | h
    · simp [h]
    · simp [h]
    · simp [h]
  have hsc : shortCircuitSlug (applyOpts s.options os)
      ((applyOpts s.options os).method value (applyOpts s.options os).seperator)
      (buildSimularList pairs) = some ex := by
    simp [shortCircuitSlug, if_neg hid, hlook, hbool]
  have hdec := decision_short (applyOpts s.options os) _ (buildSimularList pairs) ex hne hsc
  constructor
  · simp only [Sluggable.Generate, hgr]
    exact hdec
  · simp only [Sluggable.Generate, hgr]

/-- Claim C4 witness: identifier `"1"` owns slug `"hello-world"`, candidate is
`"hello-world"`, and a row with suffix 9 is also present; the stored slug is
returned unchanged. -/
theorem generateIdentifierShortCircuitWitness :
    (Sluggable.Generate ⟨optsIdent⟩ dbIdent "hello-world" []).slug = "hello-world" ∧
    (Sluggable.Generate ⟨optsIdent⟩ dbIdent "hello-world" []).error = none :=
  generateIdentifierShortCircuit ⟨optsIdent⟩ dbIdent "hello-world" [] optsIdent "hello-world"
    [(Cell.ok "1", Cell.ok "hello-world"), (Cell.ok "9", Cell.ok "hello-world-9")]
    [("1", "hello-world"), ("9", "hello-world-9")]
    [("1", "hello-world"), ("9", "hello-world-9")]
    "hello-world" rfl (by decide) rfl rfl rfl rfl (by decide) (by decide) (Or.inl rfl)

/-- Claim C5 counterexample: a returned row whose slug `"7"` is NOT a suffixed
continuation of the candidate `"a"` (it does not even start with `"a-"`)
still contributes to `latestSuffix`, because `TrimPrefix` leaves a
non-matching slug unchanged and `"7"` then parses as an integer: the call
returns `"a-8"` instead of the suffix-free outcome `"a-2"`. -/
theorem nonContinuationContributes :
    hasPre "7" ("a" ++ "-") = false ∧
    latestSuffix ["7"] "a" "-" = 7 ∧
    latestSuffix [] "a" "-" = 0 ∧
    (Sluggable.Generate ⟨optsPlain⟩ dbLoneInteger "a" []).slug = "a-8" := by
  decide

/-- Claim C5 (amended): in the suffix scan of `Generate`, a returned row whose
slug — after `TrimPrefix` of `candidateSlug + separator`, which returns the
slug unchanged when that prefix is absent — does not parse as an integer
contributes nothing to `latestSuffix`. -/
theorem suffixScanIgnoresUnparsable (slug sep v : String) (vs1 vs2 : List String)
    (h : Atoi (trimPre v (slug ++ sep)) = none) :
    latestSuffix (vs1 ++ v :: vs2) slug sep = latestSuffix (vs1 ++ vs2) slug sep :=
  latestSuffixAux_skip slug sep v h vs1 vs2 0

/-- Claim C5 witness: dropping the unparsable slug `"q"` from the scanned
values leaves `latestSuffix` unchanged. -/
theorem suffixScanIgnoresUnparsableWitness :
    latestSuffix (["a-3"] ++ "q" :: []) "a" "-" = latestSuffix (["a-3"] ++ []) "a" "-" :=
  suffixScanIgnoresUnparsable "a" "-" "q" ["a-3"] [] (by decide)

/-- Claim C6: when the returned row set is non-empty, the identifier
short-circuit does not apply, and no returned slug strips to a positive
integer, `Generate` succeeds with `candidateSlug + separator + firstSuffix`;
the default configuration's first suffix is 2. -/
theorem generateFirstSuffixWhenNoPositive (makeLang : String → String → String)
    (s : Sluggable) (db : Exec) (value : String)
    (os : List sluggableOption) (m : options) (cslug : String)
    (rows : List Row) (pairs sl : List (String × String))
    (hm : m = applyOpts s.options os)
    (hname : m.tableName ≠ "")
    (hslug : cslug = m.method value m.seperator)
    (hdb : db (buildQuery m cslug).1 (buildQuery m cslug).2 = Except.ok rows)
    (hscan : scanRows rows = Except.ok pairs)
    (hsl : sl = buildSimularList pairs)
    (hne : sl ≠ [])
    (hsc : shortCircuitSlug m cslug sl = none)
    (hub : ∀ v ∈ sl.map Prod.snd, ∀ n,
      Atoi (trimPre v (cslug ++ m.seperator)) = some n → n ≤ 0) :
    (s.Generate db value os).slug = cslug ++ m.seperator ++ toString m.firstUniqueSuffix ∧
    (s.Generate db value os).error = none ∧
    (getDefaultOptions makeLang).firstUniqueSuffix = 2 := by
  subst hm
  subst hslug
  subst hsl
  have hlen : ¬ ((applyOpts s.options os).tableName.length = 0) :=
    fun h => hname ((strLenZero _).mp h)
  have hgr := generateResult_ok (applyOpts s.options os) db value rows pairs hlen hdb hscan
  have hzero := latestSuffix_eq_zero ((buildSimularList pairs).map Prod.snd) _ _ hub
  have hdec := decision_suffix (applyOpts s.options os) _ (buildSimularList pairs) hne hsc
  rw [hzero, if_neg (by omega : ¬ ((0 : Int) > 0))] at hdec
  refine ⟨?_, ?_, rfl⟩
  · simp only [Sluggable.Generate, hgr]
    exact hdec
  · simp only [Sluggable.Generate, hgr]

/-- Claim C6 witness: existing set `{hello-world}` with default first suffix 2
yields `hello-world-2`. -/
theorem generateFirstSuffixWhenNoPositiveWitness :
    (Sluggable.Generate ⟨optsPlain⟩ dbDup "hello-world" []).slug =
      "hello-world" ++ "-" ++ toString (2 : Int) ∧
    (Sluggable.Generate ⟨optsPlain⟩ dbDup "hello-world" []).error = none ∧
    (getDefaultOptions identityMethod).firstUniqueSuffix = 2 :=
  generateFirstSuffixWhenNoPositive identityMethod ⟨optsPlain⟩ dbDup "hello-world" []
    optsPlain "hello-world" [(Cell.ok "1", Cell.ok "hello-world")]
    [("1", "hello-world")] [("1", "hello-world")]
    rfl (by decide) rfl rfl rfl rfl (by decide) (by decide)
    (by
      intro v hv n hn
      simp only [List.map_cons, List.map_nil, List.mem_cons, List.not_mem_nil,
        or_false] at hv
      subst hv
      rw [(by decide :
        Atoi (trimPre "hello-world" ("hello-world" ++ optsPlain.seperator)) = none)] at hn
      exact Option.noConfusion hn)

/-- Claim C7: when the table name is empty after merging the overrides,
`Generate` fails with the configuration error and hands zero queries to the
executor. -/
theorem generateEmptyTableNameFails (s : Sluggable) (db : Exec) (value : String)
    (os : List sluggableOption)
    (h : (applyOpts s.options os).tableName = "") :
    (s.Generate db value os).slug = "" ∧
    (s.Generate db value os).error = some tableErrMsg ∧
    (s.Generate db value os).queries = [] := by
  have hlen : (applyOpts s.options os).tableName.length = 0 := (strLenZero _).mpr h
  have hgr : generateResult (applyOpts s.options os) db value = ("", some tableErrMsg, []) := by
    simp only [generateResult, if_pos hlen]
  refine ⟨?_, ?_, ?_⟩ <;> simp only [Sluggable.Generate, hgr]

/-- Claim C7 witness: the default configuration has no table name, so the call
fails before any query. -/
theorem generateEmptyTableNameFailsWitness :
    (Sluggable.Generate ⟨getDefaultOptions identityMethod⟩ dbOkEmpty "x" []).slug = "" ∧
    (Sluggable.Generate ⟨getDefaultOptions identityMethod⟩ dbOkEmpty "x" []).error =
      some tableErrMsg ∧
    (Sluggable.Generate ⟨getDefaultOptions identityMethod⟩ dbOkEmpty "x" []).queries = [] :=
  generateEmptyTableNameFails ⟨getDefaultOptions identityMethod⟩ dbOkEmpty "x" [] rfl

/-- Claim C8: when the executor's query fails, or a returned row cannot be
scanned into strings, the whole call fails with an error wrapping the
underlying cause and an empty slug, after exactly the one query — no partial
slug and no retry. -/
theorem generateErrorNoPartialSlug (s : Sluggable) (db : Exec) (value : String)
    (os : List sluggableOption) (m : options) (cslug : String) (msg : String)
    (hm : m = applyOpts s.options os)
    (hname : m.tableName ≠ "")
    (hslug : cslug = m.method value m.seperator)
    (hfail :
      (∃ e, db (buildQuery m cslug).1 (buildQuery m cslug).2 = Except.error e ∧
        msg = queryErrPre ++ e) ∨
      (∃ rows e, db (buildQuery m cslug).1 (buildQuery m cslug).2 = Except.ok rows ∧
        scanRows rows = Except.error e ∧ msg = scanErrPre ++ e)) :
    (s.Generate db value os).slug = "" ∧
    (s.Generate db value os).error = some msg ∧
    (s.Generate db value os).queries = [buildQuery m cslug] := by
  subst hm
  subst hslug
  have hlen : ¬ ((applyOpts s.options os).tableName.length = 0) :=
    fun h => hname ((strLenZero _).mp h)
  rcases hfail with ⟨e, hdb, rfl⟩ | ⟨rows, e, hdb, hscan, rfl⟩
  · have hgr := generateResult_queryError (applyOpts s.options os) db value e hlen hdb
    refine ⟨?_, ?_, ?_⟩ <;> simp only [Sluggable.Generate, hgr]
  · have hgr := generateResult_scanError (applyOpts s.options os) db value rows e hlen hdb hscan
    refine ⟨?_, ?_, ?_⟩ <;> simp only [Sluggable.Generate, hgr]

/-- Claim C8 witness: a failing executor makes the call fail with the wrapped
cause, an empty slug, and the single attempted query. -/
theorem generateErrorNoPartialSlugWitness :
    (Sluggable.Generate ⟨optsPlain⟩ dbFail "x" []).slug = "" ∧
    (Sluggable.Generate ⟨optsPlain⟩ dbFail "x" []).error = some (queryErrPre ++ "boom") ∧
    (Sluggable.Generate ⟨optsPlain⟩ dbFail "x" []).queries = [buildQuery optsPlain "x"] :=
  generateErrorNoPartialSlug ⟨optsPlain⟩ dbFail "x" [] optsPlain "x" (queryErrPre ++ "boom")
    rfl (by decide) rfl (Or.inl ⟨"boom", rfl, rfl⟩)

/-- Claim C9: removing the soft-delete predicate twice equals removing it
once, and adding a predicate twice under the same fragment text overwrites
rather than duplicates — the result equals a single application with the last
parameters, and the mapping holds exactly those last parameters. -/
theorem optionIdempotence (o : options) (sql : String) (ps1 ps2 : List Param) :
    WithDeleted (WithDeleted o) = WithDeleted o ∧
    WithWhere sql ps2 (WithWhere sql ps1 o) = WithWhere sql ps2 o ∧
    lookupAssoc (WithWhere sql ps2 (WithWhere sql ps1 o)).wheres sql = some ps2 := by
  refine ⟨?_, ?_, ?_⟩
  · simp [WithDeleted, filter_idem]
  · simp [WithWhere, insertAssoc_twice]
  · simp [WithWhere, insertAssoc_twice, lookupAssoc_insertAssoc]

/-- Claim C10: the default slug method installed by `getDefaultOptions`
ignores its separator argument — for every text and every two separators it
produces the same candidate slug. -/
theorem defaultMethodIgnoresSeperator (makeLang : String → String → String)
    (text s1 s2 : String) :
    (getDefaultOptions makeLang).method text s1 =
      (getDefaultOptions makeLang).method text s2 :=
  rfl
